import Mathlib

/-!
Shallow embedding of `src/server.ts` of the atlas-command-voice-bridge
repository: a Twilio media-stream / OpenAI Realtime voice bridge.

JavaScript strings are modelled as lists of characters (`Str`), Node
`Buffer`s as lists of byte values (`List Nat`, each `< 256` on real
buffers), and 16-bit signed integers as `Int` with explicit `% 65536`
wrapping where `Int16Array` / `Buffer.writeInt16LE` truncate.

Each per-call WebSocket handler of the source becomes a pure transition
function on the session state `TwilioStreamContext`; the event-driven
control flow of the process is modelled as a fold (`run`) of those
transitions over a list of incoming events (JavaScript's run-to-completion
scheduling makes each handler atomic).  Network sends (WebSocket messages,
HTTP requests) and structured log lines are collected in an output record
`Out` instead of performing I/O; the HTTP responses the environment would
return are passed in as event payloads (`SummaryOutcome`).
-/

namespace VoiceBridge

/-- A JavaScript string, modelled as its list of characters. -/
abbrev Str := List Char

/-- The whitespace characters relevant to `String.prototype.trim` that can
occur in this system's strings (space, tab, newline, carriage return). -/
def isJsWhitespaceChar (c : Char) : Bool :=
  c = ' ' || c = '\t' || c = '\n' || c = '\r'

/-- `s.trim()`: remove leading and trailing whitespace. -/
def jsTrim (s : Str) : Str :=
  ((s.dropWhile isJsWhitespaceChar).reverse.dropWhile isJsWhitespaceChar).reverse

/-- JavaScript falsiness of an optional string: `undefined` and `""` are
falsy, so `x || null` collapses both to `null`. -/
def normFalsy (s : Option Str) : Option Str :=
  match s with
  | some [] => none
  | x => x

-- ---------- Helpers: µ-law <-> PCM ----------

/-- `mulawToLinearSample`: convert one 8-bit µ-law sample to 16-bit linear
PCM.  `~uVal & 0xff` on a byte value equals `255 - uVal % 256`. -/
def mulawToLinearSample (uVal : Nat) : Int :=
  let u := 255 - uVal % 256
  let sign := u &&& 0x80
  let exponent := (u >>> 4) &&& 0x07
  let mantissa := u &&& 0x0f
  let sample : Int := (Int.ofNat (((mantissa <<< 3) + 0x84) <<< exponent)) - 0x84
  if sign ≠ 0 then -sample else sample

/-- Little-endian byte pair of a 16-bit store (`Int16Array` assignment and
`Buffer.writeInt16LE` both truncate to the low 16 bits). -/
def int16ToBytes (s : Int) : List Nat :=
  let n := (s % 65536).toNat
  [n % 256, n / 256 % 256]

/-- `Buffer.readInt16LE`: reassemble a signed 16-bit value from two bytes
(real buffer bytes are `< 256`; the `% 256` records that invariant). -/
def int16OfBytes (lo hi : Nat) : Int :=
  let n := lo % 256 + 256 * (hi % 256)
  if n < 32768 then (n : Int) else (n : Int) - 65536

/-- The value actually observed after a 16-bit store and load. -/
def toInt16 (s : Int) : Int :=
  if s % 65536 < 32768 then s % 65536 else s % 65536 - 65536

/-- Read a PCM16LE buffer as its list of samples, two bytes per sample
(the loops of the source iterate `i < length / 2`). -/
def bytesToInt16Pairs : List Nat → List Int
  | lo :: hi :: rest => int16OfBytes lo hi :: bytesToInt16Pairs rest
  | _ => []

/-- `decodeMulawToPcm16`: decode a buffer of µ-law bytes to PCM16LE, one
16-bit sample (two bytes) per input byte. -/
def decodeMulawToPcm16 : List Nat → List Nat
  | [] => []
  | b :: rest => int16ToBytes (mulawToLinearSample b) ++ decodeMulawToPcm16 rest

/-- Body of `upsample8kTo16k`: write every sample twice, in order. -/
def upsampleSamples : List Int → List Nat
  | [] => []
  | s :: rest => int16ToBytes s ++ int16ToBytes s ++ upsampleSamples rest

/-- `upsample8kTo16k`: naive 8 kHz → 16 kHz upsampling by duplicating each
16-bit sample of the input buffer. -/
def upsample8kTo16k (pcm8k : List Nat) : List Nat :=
  upsampleSamples (bytesToInt16Pairs pcm8k)

/-- Each element of a list, twice, in order. -/
def dupEach : List Int → List Int
  | [] => []
  | s :: rest => s :: s :: dupEach rest

-- ---------- Codec lemmas ----------

theorem int16OfBytes_int16ToBytes (s : Int) (l : List Nat) :
    bytesToInt16Pairs (int16ToBytes s ++ l) = toInt16 s :: bytesToInt16Pairs l := by
  simp only [int16ToBytes, List.cons_append, List.nil_append, bytesToInt16Pairs]
  congr 1
  simp only [int16OfBytes, toInt16]
  have h0 : (0 : Int) ≤ s % 65536 := Int.emod_nonneg s (by norm_num)
  have h1 : s % 65536 < 65536 := Int.emod_lt_of_pos s (by norm_num)
  split <;> split <;> omega

theorem toInt16_int16OfBytes (lo hi : Nat) :
    toInt16 (int16OfBytes lo hi) = int16OfBytes lo hi := by
  simp only [int16OfBytes, toInt16]
  have h2 : lo % 256 < 256 := Nat.mod_lt _ (by norm_num)
  have h3 : hi % 256 < 256 := Nat.mod_lt _ (by norm_num)
  split <;> split <;> omega

theorem bytesToInt16Pairs_upsampleSamples (ss : List Int) :
    bytesToInt16Pairs (upsampleSamples ss) = dupEach (ss.map toInt16) := by
  induction ss with
  | nil => rfl
  | cons s rest ih =>
      simp only [upsampleSamples, List.append_assoc, int16OfBytes_int16ToBytes,
        List.map_cons, dupEach, ih]

theorem map_toInt16_bytesToInt16Pairs (pcm : List Nat) :
    (bytesToInt16Pairs pcm).map toInt16 = bytesToInt16Pairs pcm := by
  induction pcm using bytesToInt16Pairs.induct with
  | case1 lo hi rest ih =>
      simp only [bytesToInt16Pairs, List.map_cons, toInt16_int16OfBytes, ih]
  | case2 l h => cases l with
      | nil => rfl
      | cons a t => cases t with
          | nil => rfl
          | cons b u => exact absurd rfl (h a b u)

theorem length_upsampleSamples (ss : List Int) :
    (upsampleSamples ss).length = 4 * ss.length := by
  induction ss with
  | nil => rfl
  | cons s rest ih =>
      simp only [upsampleSamples, List.length_append, ih, int16ToBytes,
        List.length_cons, List.length_nil]
      omega

theorem bytesToInt16Pairs_decodeMulawToPcm16 (mulawBuf : List Nat) :
    bytesToInt16Pairs (decodeMulawToPcm16 mulawBuf)
      = mulawBuf.map (fun b => toInt16 (mulawToLinearSample b)) := by
  induction mulawBuf with
  | nil => rfl
  | cons b rest ih =>
      simp only [decodeMulawToPcm16, int16OfBytes_int16ToBytes, List.map_cons, ih]

/-- The upsampler emits each input sample exactly twice, in order, for any
PCM16LE buffer. -/
theorem upsample_duplicates_samples (pcm : List Nat) :
    bytesToInt16Pairs (upsample8kTo16k pcm) = dupEach (bytesToInt16Pairs pcm) := by
  simp only [upsample8kTo16k, bytesToInt16Pairs_upsampleSamples,
    map_toInt16_bytesToInt16Pairs]

theorem length_decode_upsample (mulawBuf : List Nat) :
    (upsample8kTo16k (decodeMulawToPcm16 mulawBuf)).length = 4 * mulawBuf.length := by
  simp only [upsample8kTo16k, length_upsampleSamples]
  have h := congrArg List.length (bytesToInt16Pairs_decodeMulawToPcm16 mulawBuf)
  simp only [List.length_map] at h
  omega

-- ---------- Trim lemmas ----------

theorem dropWhile_dropWhile (p : Char → Bool) (l : List Char) :
    (l.dropWhile p).dropWhile p = l.dropWhile p := by
  induction l with
  | nil => rfl
  | cons a t ih =>
      by_cases h : p a
      · simp only [List.dropWhile_cons, h, if_true, ih]
      · simp only [List.dropWhile_cons, h, if_false, Bool.false_eq_true]

theorem dropWhile_head_false (p : Char → Bool) (l : List Char) (x : Char)
    (xs : List Char) (h : l.dropWhile p = x :: xs) : p x = false := by
  induction l with
  | nil => exact List.noConfusion (by simpa only [List.dropWhile_nil] using h)
  | cons a t ih =>
      by_cases ha : p a
      · exact ih (by simpa only [List.dropWhile_cons, ha, if_true] using h)
      · simp only [List.dropWhile_cons, ha, if_false, Bool.false_eq_true] at h
        obtain ⟨rfl, rfl⟩ := h
        exact Bool.of_not_eq_true ha

theorem dropWhile_eq_self_of_head (p : Char → Bool) (l : List Char)
    (h : ∀ x xs, l = x :: xs → p x = false) : l.dropWhile p = l := by
  cases l with
  | nil => rfl
  | cons a t => simp only [List.dropWhile_cons, h a t rfl, Bool.false_eq_true, if_false]

/-- `s.trim().trim() = s.trim()`. -/
theorem jsTrim_jsTrim (s : Str) : jsTrim (jsTrim s) = jsTrim s := by
  unfold jsTrim
  set a := s.dropWhile isJsWhitespaceChar with ha
  set c := a.reverse.dropWhile isJsWhitespaceChar with hc
  have h1 : c.reverse.dropWhile isJsWhitespaceChar = c.reverse := by
    apply dropWhile_eq_self_of_head
    intro x xs hx
    have hpre : c.reverse ++ (a.reverse.takeWhile isJsWhitespaceChar).reverse = a := by
      have := List.takeWhile_append_dropWhile (p := isJsWhitespaceChar) (l := a.reverse)
      calc c.reverse ++ (a.reverse.takeWhile isJsWhitespaceChar).reverse
          = ((a.reverse.takeWhile isJsWhitespaceChar) ++ c).reverse := by
            simp only [List.reverse_append]
        _ = a.reverse.reverse := by rw [hc, this]
        _ = a := a.reverse_reverse
    have hx2 : c.reverse ++ (a.reverse.takeWhile isJsWhitespaceChar).reverse
        = x :: (xs ++ (a.reverse.takeWhile isJsWhitespaceChar).reverse) := by
      rw [hx, List.cons_append]
    exact dropWhile_head_false isJsWhitespaceChar s x _
      (ha.symm.trans (hpre.symm.trans hx2))
  rw [h1, List.reverse_reverse, hc, dropWhile_dropWhile]

theorem jsTrim_ne_nil_of_trim (s : Str) (h : jsTrim s ≠ []) :
    jsTrim (jsTrim s) ≠ [] := by rw [jsTrim_jsTrim]; exact h

-- ---------- Types for internal state ----------

/-- `CallDirection` from `voiceBridgeCallLogger`. -/
inductive CallDirection
  | INBOUND
  | OUTBOUND
deriving DecidableEq, Repr

/-- `type CallType = "FIRST" | "FOLLOWUP"`. -/
inductive CallType
  | FIRST
  | FOLLOWUP
deriving DecidableEq, Repr

/-- Per-connection session state (`interface TwilioStreamContext`).  The two
WebSocket handles are modelled by their observable state: `twilioOpen` for
`twilioWs.readyState === OPEN`, `openaiWs` for `ctx.openaiWs !== null`,
`openaiOpen` for the OpenAI socket's `readyState === OPEN`. -/
structure TwilioStreamContext where
  connectionId : Str
  correlationId : Option Str
  streamSid : Option Str
  callSid : Option Str
  twilioOpen : Bool
  openaiWs : Bool
  openaiOpen : Bool
  openaiReady : Bool
  transcript : Str
  assistantBuffer : Str
  humanSpeaking : Bool
  lastHumanSpeechAt : Option Nat
  direction : CallDirection
  callType : CallType
  lastSummary : Option Str
  lastTranscript : Option Str
deriving DecidableEq, Repr

/-- Messages this bridge sends on the OpenAI Realtime WebSocket.  Payload
details not needed by any verified property (voice, formats, VAD knobs) are
elided; `audioAppend` carries the PCM16LE bytes whose base64 encoding the
source would send. -/
inductive OpenAIMsg
  | sessionUpdate (instructions : Str)
  | responseCreate (instructions : Str)
  | audioAppend (audio : List Nat)
deriving DecidableEq, Repr

/-- Outbound frames this bridge sends on the Twilio WebSocket: the JSON
object `{event:"media", streamSid, media:{payload}}`. -/
inductive TwilioOut
  | media (streamSid : Str) (payload : Str)
deriving DecidableEq, Repr

/-- HTTP requests issued by the finalization pipeline.  The summary request
also carries model/prompt/temperature fields and the call-log post carries
further null fields (org, timestamps, numbers, recording); those are elided
as no claim depends on them. -/
inductive HttpRequest
  | summaryRequest (transcript : Str)
  | callLogPost (callSid : Str) (direction : CallDirection) (transcript : Str)
      (aiSummary : Option Str)
deriving DecidableEq, Repr

/-- Structured log events (`logStructured`), by their `event` tag. -/
inductive LogEv
  | twilioStartEvent
  | twilioMarkEvent
  | twilioStopEvent
  | twilioUnknownEvent
  | twilioWsConnectionClosed
  | twilioWsConnectionError
  | openaiRealtimeConnecting
  | openaiSessionUpdateSent
  | openaiInitialResponseCreateSent
  | openaiVadSpeechStarted
  | openaiVadSpeechStopped
  | droppedOutboundAudioHumanSpeaking
  | outboundAudioToTwilio
  | openaiResponseCompleted
  | openaiCallerTranscript
  | openaiErrorEvent
  | openaiWsClosed
  | openaiWsError
  | calllogMissingCallSid
  | calllogEmptyTranscript
  | calllogPrepareTranscript
  | transcriptTooShortForSummary
deriving DecidableEq, Repr

/-- Observable output of one handler invocation: messages sent on each
socket, HTTP requests issued, structured logs, and the number of times the
finalization pipeline (`saveTranscriptAndSummary`) was entered. -/
structure Out where
  openaiMsgs : List OpenAIMsg := []
  twilioMsgs : List TwilioOut := []
  httpReqs : List HttpRequest := []
  logs : List LogEv := []
  finals : Nat := 0
deriving DecidableEq, Repr

instance : Append Out :=
  ⟨fun a b =>
    ⟨a.openaiMsgs ++ b.openaiMsgs, a.twilioMsgs ++ b.twilioMsgs,
     a.httpReqs ++ b.httpReqs, a.logs ++ b.logs, a.finals + b.finals⟩⟩

/-- Process-wide configuration and prompt texts, loaded once at startup. -/
structure Config where
  callSystemPrompt : Str
  summarySystemPrompt : Str
  voiceStyle : Str
  summaryModel : Str
  defaultOrgId : Option Str
deriving DecidableEq, Repr

-- ---------- String constants used by the handlers ----------

def INBOUND_STR : Str := ['I', 'N', 'B', 'O', 'U', 'N', 'D']

def FIRST_STR : Str := ['F', 'I', 'R', 'S', 'T']

def FOLLOWUP_STR : Str := ['F', 'O', 'L', 'L', 'O', 'W', 'U', 'P']

/-- `"\nCaller: "` — prefix of a caller transcript line. -/
def callerLineTag : Str := ['\n', 'C', 'a', 'l', 'l', 'e', 'r', ':', ' ']

/-- `"\nDipsy: "` — prefix of an agent transcript line. -/
def dipsyLineTag : Str := ['\n', 'D', 'i', 'p', 's', 'y', ':', ' ']

def newlineStr : Str := ['\n']

def twoNewlines : Str := ['\n', '\n']

/-- Built-in fallback call prompt (the long instructional prose of the
source is elided; its content is irrelevant to every verified property). -/
def fallbackCallPrompt : Str := ['D', 'i', 'p', 's', 'y']

/-- The FOLLOWUP block of the composed instructions, inlining the prior
summary and transcript (placeholder text elided to a marker character). -/
def followupBlock (lastSummary lastTranscript : Option Str) : Str :=
  jsTrim (['F', 'U', ':'] ++ lastSummary.getD ['-'] ++ [';'] ++ lastTranscript.getD ['-'])

/-- The FIRST-call block: fixed note that no prior memory is loaded. -/
def firstCallBlock : Str := ['N', 'O', 'M', 'E', 'M']

/-- Four fixed initial-turn directive variants (prose elided). -/
def inboundIntroFollowup : Str := ['I', 'F']

def inboundIntroFirst : Str := ['I', '1']

def outboundIntroFollowup : Str := ['O', 'F']

def outboundIntroFirst : Str := ['O', '1']

-- ---------- Events ----------

/-- Payload of a Twilio `start` frame (`data.start` and its
`customParameters`), each field a raw optional string. -/
structure StartData where
  streamSid : Option Str
  callSid : Option Str
  direction : Option Str
  callType : Option Str
  lastSummary : Option Str
  lastTranscript : Option Str
deriving DecidableEq, Repr

/-- Outcome the environment would produce for the summary HTTP request:
2xx with content, non-2xx status, or a transport error (fetch throw). -/
inductive SummaryOutcome
  | ok (content : Str)
  | httpError
  | transportError
deriving DecidableEq, Repr

/-- Typed events of the OpenAI Realtime message stream, as recognized by
the `openaiWs.on("message")` handler.  Optional payloads model absent JSON
fields. -/
inductive OpenAIEvent
  | speechStarted
  | speechStopped
  | audioDelta (delta : Option Str)
  | outputTextDelta (delta : Option Str)
  | responseCompleted
  | inputTranscriptionCompleted (transcript : Option Str)
  | errorEvent
  | otherEvent
deriving DecidableEq, Repr

/-- One event delivered to the session: a Twilio frame, a Twilio socket
close/error, or an OpenAI socket open/message/close/error.  `twilioMedia`
carries the base64-decoded µ-law bytes (`none` models a missing
`media.payload`); `twilioStop` carries the environment's response to the
summary request that finalization may issue. -/
inductive Ev
  | twilioStart (d : StartData)
  | twilioMedia (payload : Option (List Nat))
  | twilioMark
  | twilioStop (o : SummaryOutcome)
  | twilioUnknown
  | twilioClose
  | twilioError
  | openaiOpen
  | openaiMsg (e : OpenAIEvent)
  | openaiClose
  | openaiError
deriving DecidableEq, Repr

-- ---------- Session construction ----------

/-- The context built on `wss.on("connection")`. -/
def initialCtx (connectionId : Str) : TwilioStreamContext :=
  { connectionId := connectionId
    correlationId := none
    streamSid := none
    callSid := none
    twilioOpen := true
    openaiWs := false
    openaiOpen := false
    openaiReady := false
    transcript := []
    assistantBuffer := []
    humanSpeaking := false
    lastHumanSpeechAt := none
    direction := CallDirection.OUTBOUND
    callType := CallType.FIRST
    lastSummary := none
    lastTranscript := none }

-- ---------- Handlers ----------

/-- `handleTwilioStart`: capture stream/call ids and custom parameters,
choose the correlation id (`callSid || streamSid || connectionId`), and
open the OpenAI Realtime WebSocket (handle present, not yet open). -/
def handleTwilioStart (ctx : TwilioStreamContext) (d : StartData) :
    TwilioStreamContext × Out :=
  let streamSid := normFalsy d.streamSid
  let callSid := normFalsy d.callSid
  let direction :=
    if d.direction = some INBOUND_STR then CallDirection.INBOUND
    else CallDirection.OUTBOUND
  let rawCallType := (normFalsy d.callType).getD FIRST_STR
  let callType :=
    if rawCallType = FOLLOWUP_STR then CallType.FOLLOWUP else CallType.FIRST
  ({ ctx with
      streamSid := streamSid
      callSid := callSid
      direction := direction
      callType := callType
      lastSummary := normFalsy d.lastSummary
      lastTranscript := normFalsy d.lastTranscript
      correlationId := some ((callSid.getD (streamSid.getD ctx.connectionId)))
      openaiWs := true
      openaiOpen := false },
   { logs := [LogEv.twilioStartEvent, LogEv.openaiRealtimeConnecting] })

/-- The composed instruction string
`${baseInstructions.trim()}\n\n${followupContext}`.trim()`. -/
def fullInstructions (cfg : Config) (ctx : TwilioStreamContext) : Str :=
  let baseInstructions :=
    if jsTrim cfg.callSystemPrompt ≠ [] then cfg.callSystemPrompt
    else fallbackCallPrompt
  let followupContext :=
    if ctx.callType = CallType.FOLLOWUP then
      followupBlock ctx.lastSummary ctx.lastTranscript
    else firstCallBlock
  jsTrim (jsTrim baseInstructions ++ twoNewlines ++ followupContext)

/-- The initial-turn directive, one of four variants keyed by
`(direction, callType)`. -/
def initialIntro (ctx : TwilioStreamContext) : Str :=
  if ctx.direction = CallDirection.INBOUND then
    if ctx.callType = CallType.FOLLOWUP then inboundIntroFollowup
    else inboundIntroFirst
  else
    if ctx.callType = CallType.FOLLOWUP then outboundIntroFollowup
    else outboundIntroFirst

/-- `openaiWs.on("open")`: mark the link ready, then send `session.update`
followed by the initial `response.create` (atomic in one JS turn). -/
def handleOpenAIOpen (cfg : Config) (ctx : TwilioStreamContext) :
    TwilioStreamContext × Out :=
  ({ ctx with openaiReady := true, openaiOpen := true },
   { openaiMsgs := [OpenAIMsg.sessionUpdate (fullInstructions cfg ctx),
                    OpenAIMsg.responseCreate (initialIntro ctx)]
     logs := [LogEv.openaiSessionUpdateSent, LogEv.openaiInitialResponseCreateSent] })

/-- The energy-based VAD of `handleTwilioMedia`.  The source compares the
mean `sumAbs / sampleCount` of absolute 8 kHz samples with
`ENERGY_THRESHOLD = 500`; the comparison is cross-multiplied here to stay
in integers (exact for a mean that is a ratio of these integers). -/
def vadUpdate (now : Nat) (ctx : TwilioStreamContext) (pcm8k : List Nat) :
    TwilioStreamContext :=
  let samples := bytesToInt16Pairs pcm8k
  let sumAbs := (samples.map Int.natAbs).sum
  let sampleCount := samples.length
  if 500 * sampleCount < sumAbs then
    { ctx with humanSpeaking := true, lastHumanSpeechAt := some now }
  else if ctx.humanSpeaking
      && (match ctx.lastHumanSpeechAt with
          | some t => decide (600 < now - t)
          | none => false) then
    { ctx with humanSpeaking := false }
  else ctx

/-- `handleTwilioMedia`: drop the frame if the payload is missing or the
OpenAI link is absent or not ready; otherwise decode µ-law, run the energy
VAD on the 8 kHz PCM, upsample to 16 kHz and append to the OpenAI input
audio buffer. -/
def handleTwilioMedia (now : Nat) (ctx : TwilioStreamContext)
    (payload : Option (List Nat)) : TwilioStreamContext × Out :=
  match payload with
  | none => (ctx, {})
  | some mulawBuf =>
    if ctx.openaiWs && ctx.openaiReady then
      let pcm8k := decodeMulawToPcm16 mulawBuf
      let ctx' := vadUpdate now ctx pcm8k
      (ctx', { openaiMsgs := [OpenAIMsg.audioAppend (upsample8kTo16k pcm8k)] })
    else (ctx, {})

/-- `openaiWs.on("message")`: VAD events, the barge-in gated audio egress,
agent text buffering, transcript commits, caller transcription, errors. -/
def handleOpenAIMessage (now : Nat) (ctx : TwilioStreamContext)
    (e : OpenAIEvent) : TwilioStreamContext × Out :=
  match e with
  | OpenAIEvent.speechStarted =>
      ({ ctx with humanSpeaking := true, lastHumanSpeechAt := some now },
       { logs := [LogEv.openaiVadSpeechStarted] })
  | OpenAIEvent.speechStopped =>
      ({ ctx with humanSpeaking := false },
       { logs := [LogEv.openaiVadSpeechStopped] })
  | OpenAIEvent.audioDelta d =>
      match d with
      | none => (ctx, {})
      | some deltaBase64 =>
        if ctx.humanSpeaking then
          (ctx, { logs := [LogEv.droppedOutboundAudioHumanSpeaking] })
        else
          match ctx.streamSid with
          | some sid =>
            if ctx.twilioOpen then
              (ctx, { twilioMsgs := [TwilioOut.media sid deltaBase64]
                      logs := [LogEv.outboundAudioToTwilio] })
            else (ctx, {})
          | none => (ctx, {})
  | OpenAIEvent.outputTextDelta d =>
      match d with
      | some delta =>
          ({ ctx with assistantBuffer := ctx.assistantBuffer ++ delta }, {})
      | none => (ctx, {})
  | OpenAIEvent.responseCompleted =>
      if jsTrim ctx.assistantBuffer ≠ [] then
        ({ ctx with
            transcript := ctx.transcript ++ dipsyLineTag
              ++ jsTrim ctx.assistantBuffer ++ newlineStr
            assistantBuffer := [] },
         { logs := [LogEv.openaiResponseCompleted] })
      else (ctx, { logs := [LogEv.openaiResponseCompleted] })
  | OpenAIEvent.inputTranscriptionCompleted t =>
      match t with
      | some callerText =>
        if callerText ≠ [] ∧ jsTrim callerText ≠ [] then
          ({ ctx with
              transcript := ctx.transcript ++ callerLineTag
                ++ jsTrim callerText ++ newlineStr },
           { logs := [LogEv.openaiCallerTranscript] })
        else (ctx, {})
      | none => (ctx, {})
  | OpenAIEvent.errorEvent => (ctx, { logs := [LogEv.openaiErrorEvent] })
  | OpenAIEvent.otherEvent => (ctx, {})

-- ---------- Transcript + summary + logging ----------

/-- What `generateSummaryFromTranscript` returns for a given environment
outcome: `null` on non-2xx, transport error or empty content, otherwise
the trimmed content. -/
def summaryFetchResult (o : SummaryOutcome) : Option Str :=
  match o with
  | SummaryOutcome.ok content =>
      if jsTrim content = [] then none else some (jsTrim content)
  | SummaryOutcome.httpError => none
  | SummaryOutcome.transportError => none

/-- `generateSummaryFromTranscript`: always issues the chat-completion
request, returns the summary or `null` per the outcome. -/
def generateSummaryFromTranscript (o : SummaryOutcome) (transcript : Str) :
    Option Str × List HttpRequest :=
  (summaryFetchResult o, [HttpRequest.summaryRequest transcript])

/-- `saveTranscriptAndSummary`: skip (with a log, no HTTP) when `callSid`
is missing or the trimmed transcript is empty; otherwise request a summary
only when the trimmed transcript has at least 40 characters, then post the
call log. -/
def saveTranscriptAndSummary (o : SummaryOutcome) (ctx : TwilioStreamContext) :
    List HttpRequest × List LogEv :=
  let trimmed := jsTrim ctx.transcript
  match ctx.callSid with
  | none => ([], [LogEv.calllogMissingCallSid])
  | some callSid =>
    if trimmed = [] then ([], [LogEv.calllogEmptyTranscript])
    else
      let summaryAndReqs :=
        if 40 ≤ trimmed.length then generateSummaryFromTranscript o trimmed
        else (none, [])
      let shortLog :=
        if 40 ≤ trimmed.length then [] else [LogEv.transcriptTooShortForSummary]
      (summaryAndReqs.2
         ++ [HttpRequest.callLogPost callSid ctx.direction trimmed summaryAndReqs.1],
       LogEv.calllogPrepareTranscript :: shortLog)

-- ---------- Cleanup ----------

/-- `cleanup`: close the OpenAI socket if open and null the handle, clear
the ready flag, close the Twilio socket if still open. -/
def cleanup (ctx : TwilioStreamContext) : TwilioStreamContext :=
  { ctx with
      openaiWs := false
      openaiOpen := false
      openaiReady := false
      twilioOpen := false }

-- ---------- The session step function and runs ----------

/-- One handler invocation of the session, dispatching exactly as the
source's event handlers do.  `now` is the value `Date.now()` would return
during this handler. -/
def step (cfg : Config) (now : Nat) (ctx : TwilioStreamContext) (e : Ev) :
    TwilioStreamContext × Out :=
  match e with
  | Ev.twilioStart d => handleTwilioStart ctx d
  | Ev.twilioMedia p => handleTwilioMedia now ctx p
  | Ev.twilioMark => (ctx, { logs := [LogEv.twilioMarkEvent] })
  | Ev.twilioStop o =>
      (cleanup ctx,
       { httpReqs := (saveTranscriptAndSummary o ctx).1
         logs := LogEv.twilioStopEvent :: (saveTranscriptAndSummary o ctx).2
         finals := 1 })
  | Ev.twilioUnknown => (ctx, { logs := [LogEv.twilioUnknownEvent] })
  | Ev.twilioClose => (cleanup ctx, { logs := [LogEv.twilioWsConnectionClosed] })
  | Ev.twilioError => (cleanup ctx, { logs := [LogEv.twilioWsConnectionError] })
  | Ev.openaiOpen => handleOpenAIOpen cfg ctx
  | Ev.openaiMsg oe => handleOpenAIMessage now ctx oe
  | Ev.openaiClose =>
      ({ ctx with openaiReady := false, openaiWs := false, openaiOpen := false },
       { logs := [LogEv.openaiWsClosed] })
  | Ev.openaiError =>
      ({ ctx with openaiReady := false }, { logs := [LogEv.openaiWsError] })

/-- Process a list of timestamped events, concatenating outputs. -/
def run (cfg : Config) : TwilioStreamContext → List (Nat × Ev) →
    TwilioStreamContext × Out
  | ctx, [] => (ctx, {})
  | ctx, (now, e) :: rest =>
      ((run cfg (step cfg now ctx e).1 rest).1,
       (step cfg now ctx e).2 ++ (run cfg (step cfg now ctx e).1 rest).2)

/-- The number of telephony `stop` events in an event list. -/
def countStops : List (Nat × Ev) → Nat
  | [] => 0
  | (_, Ev.twilioStop _) :: rest => countStops rest + 1
  | _ :: rest => countStops rest

-- ---------- Transcript segments ----------

/-- A transcript entry: a caller line or an agent (Dipsy) line. -/
inductive Segment
  | caller (text : Str)
  | dipsy (text : Str)
deriving DecidableEq, Repr

/-- Serialization of one segment, exactly as the source appends it:
`"\nCaller: <text>\n"` or `"\nDipsy: <text>\n"`. -/
def serializeSegment : Segment → Str
  | Segment.caller t => callerLineTag ++ t ++ newlineStr
  | Segment.dipsy t => dipsyLineTag ++ t ++ newlineStr

def serializeTranscript : List Segment → Str
  | [] => []
  | s :: rest => serializeSegment s ++ serializeTranscript rest

theorem serializeTranscript_append (a b : List Segment) :
    serializeTranscript (a ++ b) = serializeTranscript a ++ serializeTranscript b := by
  induction a with
  | nil => rfl
  | cons s rest ih =>
      show serializeSegment s ++ serializeTranscript (rest ++ b)
          = serializeSegment s ++ serializeTranscript rest ++ serializeTranscript b
      rw [ih, List.append_assoc]

/-- A transcript string is well formed when it is the serialization of a
segment list in which every Dipsy segment has non-empty trimmed text. -/
def TranscriptWF (s : Str) : Prop :=
  ∃ segs : List Segment, s = serializeTranscript segs
    ∧ ∀ t : Str, Segment.dipsy t ∈ segs → jsTrim t ≠ []

theorem transcriptWF_nil : TranscriptWF [] :=
  ⟨[], rfl, fun t h => absurd h (List.not_mem_nil _)⟩

theorem transcriptWF_append_caller (s t : Str) (h : TranscriptWF s) :
    TranscriptWF (s ++ callerLineTag ++ t ++ newlineStr) := by
  obtain ⟨segs, hs, hd⟩ := h
  refine ⟨segs ++ [Segment.caller t], ?_, ?_⟩
  · rw [serializeTranscript_append, ← hs]
    simp only [serializeTranscript, serializeSegment, List.append_assoc, List.append_nil]
  · intro u hu
    rcases List.mem_append.mp hu with h1 | h2
    · exact hd u h1
    · simp only [List.mem_singleton] at h2
      exact absurd h2 (by intro hx; cases hx)

theorem transcriptWF_append_dipsy (s t : Str) (h : TranscriptWF s)
    (ht : jsTrim t ≠ []) :
    TranscriptWF (s ++ dipsyLineTag ++ t ++ newlineStr) := by
  obtain ⟨segs, hs, hd⟩ := h
  refine ⟨segs ++ [Segment.dipsy t], ?_, ?_⟩
  · rw [serializeTranscript_append, ← hs]
    simp only [serializeTranscript, serializeSegment, List.append_assoc, List.append_nil]
  · intro u hu
    rcases List.mem_append.mp hu with h1 | h2
    · exact hd u h1
    · simp only [List.mem_singleton, Segment.dipsy.injEq] at h2
      rw [h2]; exact ht

/-- Every handler either leaves the transcript unchanged, appends one
caller line, or appends one Dipsy line with non-empty trimmed text. -/
theorem step_transcript_shape (cfg : Config) (now : Nat)
    (ctx : TwilioStreamContext) (e : Ev) :
    (step cfg now ctx e).1.transcript = ctx.transcript
    ∨ (∃ t, (step cfg now ctx e).1.transcript
        = ctx.transcript ++ callerLineTag ++ t ++ newlineStr)
    ∨ (∃ t, jsTrim t ≠ [] ∧ (step cfg now ctx e).1.transcript
        = ctx.transcript ++ dipsyLineTag ++ t ++ newlineStr) := by
  cases e with
  | twilioStart d => left; rfl
  | twilioMedia p =>
      cases p with
      | none => left; rfl
      | some buf =>
          simp only [step, handleTwilioMedia]
          split
          · simp only [vadUpdate]
            split
            · left; rfl
            · split
              · left; rfl
              · left; rfl
          · left; rfl
  | twilioMark => left; rfl
  | twilioStop o => left; rfl
  | twilioUnknown => left; rfl
  | twilioClose => left; rfl
  | twilioError => left; rfl
  | openaiOpen => left; rfl
  | openaiMsg oe =>
      cases oe with
      | speechStarted => left; rfl
      | speechStopped => left; rfl
      | audioDelta d =>
          cases d with
          | none => left; rfl
          | some x =>
              simp only [step, handleOpenAIMessage]
              split
              · left; rfl
              · split
                · split
                  · left; rfl
                  · left; rfl
                · left; rfl
      | outputTextDelta d =>
          cases d with
          | none => left; rfl
          | some x => left; rfl
      | responseCompleted =>
          simp only [step, handleOpenAIMessage]
          split
          · right; right
            exact ⟨jsTrim ctx.assistantBuffer,
              jsTrim_ne_nil_of_trim ctx.assistantBuffer (by assumption),
              by simp only [List.append_assoc]⟩
          · left; rfl
      | inputTranscriptionCompleted t =>
          cases t with
          | none => left; rfl
          | some ct =>
              simp only [step, handleOpenAIMessage]
              split
              · right; left
                exact ⟨jsTrim ct, by simp only [List.append_assoc]⟩
              · left; rfl
      | errorEvent => left; rfl
      | otherEvent => left; rfl
  | openaiClose => left; rfl
  | openaiError => left; rfl

theorem step_transcriptWF (cfg : Config) (now : Nat)
    (ctx : TwilioStreamContext) (e : Ev) (h : TranscriptWF ctx.transcript) :
    TranscriptWF (step cfg now ctx e).1.transcript := by
  rcases step_transcript_shape cfg now ctx e with h1 | ⟨t, h2⟩ | ⟨t, ht, h3⟩
  · rw [h1]; exact h
  · rw [h2]
    have := transcriptWF_append_caller ctx.transcript t h
    simpa only [List.append_assoc] using this
  · rw [h3]
    have := transcriptWF_append_dipsy ctx.transcript t h ht
    simpa only [List.append_assoc] using this

theorem run_transcriptWF (cfg : Config) (evs : List (Nat × Ev))
    (ctx : TwilioStreamContext) (h : TranscriptWF ctx.transcript) :
    TranscriptWF (run cfg ctx evs).1.transcript := by
  induction evs generalizing ctx with
  | nil => exact h
  | cons pe rest ih =>
      exact ih (step cfg pe.1 ctx pe.2).1 (step_transcriptWF cfg pe.1 ctx pe.2 h)

-- ---------- Ordering of messages on the OpenAI link ----------

/-- Trace invariant for the messages sent on the OpenAI link: once the
ready flag is set a `session.update` and a later `response.create` are in
the trace, and every `input_audio_buffer.append` is preceded by both. -/
def GoodTrace (ready : Bool) (msgs : List OpenAIMsg) : Prop :=
  (ready = true →
    ∃ j k, j < k
      ∧ (∃ s, msgs.get? j = some (OpenAIMsg.sessionUpdate s))
      ∧ (∃ r, msgs.get? k = some (OpenAIMsg.responseCreate r)))
  ∧ ∀ i a, msgs.get? i = some (OpenAIMsg.audioAppend a) →
      ∃ j k, j < k ∧ k < i
        ∧ (∃ s, msgs.get? j = some (OpenAIMsg.sessionUpdate s))
        ∧ (∃ r, msgs.get? k = some (OpenAIMsg.responseCreate r))

theorem get?_append_left_of_some {α : Type} (l l' : List α) (n : Nat) (a : α)
    (h : l.get? n = some a) : (l ++ l').get? n = some a := by
  have hn : n < l.length := List.get?_eq_some.mp h |>.1
  rw [List.get?_append hn]; exact h

theorem goodTrace_extend_nonaudio (ready : Bool) (msgs : List OpenAIMsg)
    (h : GoodTrace ready msgs) (ext : List OpenAIMsg)
    (hext : ∀ a, OpenAIMsg.audioAppend a ∉ ext) :
    GoodTrace ready (msgs ++ ext) := by
  constructor
  · intro hr
    obtain ⟨j, k, hjk, ⟨s, hj⟩, ⟨r, hk⟩⟩ := h.1 hr
    exact ⟨j, k, hjk, ⟨s, get?_append_left_of_some _ _ _ _ hj⟩,
      ⟨r, get?_append_left_of_some _ _ _ _ hk⟩⟩
  · intro i a hi
    by_cases hlen : i < msgs.length
    · rw [List.get?_append hlen] at hi
      obtain ⟨j, k, hjk, hki, ⟨s, hj⟩, ⟨r, hk⟩⟩ := h.2 i a hi
      exact ⟨j, k, hjk, hki, ⟨s, get?_append_left_of_some _ _ _ _ hj⟩,
        ⟨r, get?_append_left_of_some _ _ _ _ hk⟩⟩
    · exfalso
      rw [List.get?_append_right (Nat.le_of_not_lt hlen)] at hi
      exact hext a (List.get?_mem hi)

theorem goodTrace_extend_audio (msgs : List OpenAIMsg)
    (h : GoodTrace true msgs) (a : List Nat) :
    GoodTrace true (msgs ++ [OpenAIMsg.audioAppend a]) := by
  obtain ⟨j, k, hjk, ⟨s, hj⟩, ⟨r, hk⟩⟩ := h.1 rfl
  have hklen : k < msgs.length := List.get?_eq_some.mp hk |>.1
  constructor
  · intro _
    exact ⟨j, k, hjk, ⟨s, get?_append_left_of_some _ _ _ _ hj⟩,
      ⟨r, get?_append_left_of_some _ _ _ _ hk⟩⟩
  · intro i b hi
    by_cases hlen : i < msgs.length
    · rw [List.get?_append hlen] at hi
      obtain ⟨j', k', hjk', hki', ⟨s', hj'⟩, ⟨r', hk'⟩⟩ := h.2 i b hi
      exact ⟨j', k', hjk', hki', ⟨s', get?_append_left_of_some _ _ _ _ hj'⟩,
        ⟨r', get?_append_left_of_some _ _ _ _ hk'⟩⟩
    · have hge := Nat.le_of_not_lt hlen
      exact ⟨j, k, hjk, Nat.lt_of_lt_of_le hklen hge,
        ⟨s, get?_append_left_of_some _ _ _ _ hj⟩,
        ⟨r, get?_append_left_of_some _ _ _ _ hk⟩⟩

theorem goodTrace_open (ready : Bool) (msgs : List OpenAIMsg)
    (h : GoodTrace ready msgs) (s r : Str) :
    GoodTrace true (msgs ++ [OpenAIMsg.sessionUpdate s, OpenAIMsg.responseCreate r]) := by
  constructor
  · intro _
    refine ⟨msgs.length, msgs.length + 1, Nat.lt_succ_self _, ⟨s, ?_⟩, ⟨r, ?_⟩⟩
    · rw [List.get?_append_right (Nat.le_refl _), Nat.sub_self]; rfl
    · rw [List.get?_append_right (Nat.le_succ_of_le (Nat.le_refl _))]
      have : msgs.length + 1 - msgs.length = 1 := by omega
      rw [this]; rfl
  · intro i a hi
    by_cases hlen : i < msgs.length
    · rw [List.get?_append hlen] at hi
      obtain ⟨j, k, hjk, hki, ⟨s', hj⟩, ⟨r', hk⟩⟩ := h.2 i a hi
      exact ⟨j, k, hjk, hki, ⟨s', get?_append_left_of_some _ _ _ _ hj⟩,
        ⟨r', get?_append_left_of_some _ _ _ _ hk⟩⟩
    · exfalso
      rw [List.get?_append_right (Nat.le_of_not_lt hlen)] at hi
      have hmem := List.get?_mem hi
      simp only [List.mem_cons] at hmem
      rcases hmem with h1 | h2 | h3
      · exact OpenAIMsg.noConfusion h1
      · exact OpenAIMsg.noConfusion h2
      · exact absurd h3 (List.not_mem_nil _)

/-- Each handler preserves the trace invariant on the OpenAI link. -/
theorem step_goodTrace (cfg : Config) (now : Nat) (ctx : TwilioStreamContext)
    (e : Ev) (msgs : List OpenAIMsg) (h : GoodTrace ctx.openaiReady msgs) :
    GoodTrace (step cfg now ctx e).1.openaiReady
      (msgs ++ (step cfg now ctx e).2.openaiMsgs) := by
  have hno : ∀ a : List Nat, OpenAIMsg.audioAppend a ∉ ([] : List OpenAIMsg) :=
    fun a => List.not_mem_nil _
  cases e with
  | twilioStart d =>
      exact goodTrace_extend_nonaudio _ msgs h [] hno
  | twilioMedia p =>
      cases p with
      | none => exact goodTrace_extend_nonaudio _ msgs h [] hno
      | some buf =>
          simp only [step, handleTwilioMedia]
          by_cases hg : ctx.openaiWs && ctx.openaiReady
          · have hready : ctx.openaiReady = true := by
              cases hr : ctx.openaiReady
              · rw [hr, Bool.and_false] at hg
                exact absurd hg (by decide)
              · rfl
            rw [if_pos hg]
            have hv : (vadUpdate now ctx (decodeMulawToPcm16 buf)).openaiReady
                = ctx.openaiReady := by
              simp only [vadUpdate]
              split
              · rfl
              · split
                · rfl
                · rfl
            rw [hv, hready]
            rw [hready] at h
            exact goodTrace_extend_audio msgs h _
          · rw [if_neg hg]
            exact goodTrace_extend_nonaudio _ msgs h [] hno
  | twilioMark => exact goodTrace_extend_nonaudio _ msgs h [] hno
  | twilioStop o =>
      show GoodTrace false (msgs ++ [])
      exact goodTrace_extend_nonaudio false msgs ⟨fun hr => (nomatch hr), h.2⟩ [] hno
  | twilioUnknown => exact goodTrace_extend_nonaudio _ msgs h [] hno
  | twilioClose =>
      show GoodTrace false (msgs ++ [])
      exact goodTrace_extend_nonaudio false msgs ⟨fun hr => (nomatch hr), h.2⟩ [] hno
  | twilioError =>
      show GoodTrace false (msgs ++ [])
      exact goodTrace_extend_nonaudio false msgs ⟨fun hr => (nomatch hr), h.2⟩ [] hno
  | openaiOpen => exact goodTrace_open _ msgs h _ _
  | openaiMsg oe =>
      have hready : (handleOpenAIMessage now ctx oe).1.openaiReady = ctx.openaiReady := by
        cases oe with
        | speechStarted => rfl
        | speechStopped => rfl
        | audioDelta d =>
            cases d with
            | none => rfl
            | some x =>
                simp only [handleOpenAIMessage]
                split
                · rfl
                · split
                  · split
                    · rfl
                    · rfl
                  · rfl
        | outputTextDelta d => cases d with
            | none => rfl
            | some x => rfl
        | responseCompleted =>
            simp only [handleOpenAIMessage]
            split
            · rfl
            · rfl
        | inputTranscriptionCompleted t =>
            cases t with
            | none => rfl
            | some ct =>
                simp only [handleOpenAIMessage]
                split
                · rfl
                · rfl
        | errorEvent => rfl
        | otherEvent => rfl
      have hmsgs : (handleOpenAIMessage now ctx oe).2.openaiMsgs = [] := by
        cases oe with
        | speechStarted => rfl
        | speechStopped => rfl
        | audioDelta d =>
            cases d with
            | none => rfl
            | some x =>
                simp only [handleOpenAIMessage]
                split
                · rfl
                · split
                  · split
                    · rfl
                    · rfl
                  · rfl
        | outputTextDelta d => cases d with
            | none => rfl
            | some x => rfl
        | responseCompleted =>
            simp only [handleOpenAIMessage]
            split
            · rfl
            · rfl
        | inputTranscriptionCompleted t =>
            cases t with
            | none => rfl
            | some ct =>
                simp only [handleOpenAIMessage]
                split
                · rfl
                · rfl
        | errorEvent => rfl
        | otherEvent => rfl
      show GoodTrace (handleOpenAIMessage now ctx oe).1.openaiReady
        (msgs ++ (handleOpenAIMessage now ctx oe).2.openaiMsgs)
      rw [hready, hmsgs]
      exact goodTrace_extend_nonaudio _ msgs h [] hno
  | openaiClose =>
      refine goodTrace_extend_nonaudio _ msgs ⟨?_, h.2⟩ [] hno
      intro hr
      exact absurd hr (by simp only [step]; exact Bool.false_ne_true)
  | openaiError =>
      refine goodTrace_extend_nonaudio _ msgs ⟨?_, h.2⟩ [] hno
      intro hr
      exact absurd hr (by simp only [step]; exact Bool.false_ne_true)

theorem run_goodTrace (cfg : Config) (evs : List (Nat × Ev))
    (ctx : TwilioStreamContext) (msgs : List OpenAIMsg)
    (h : GoodTrace ctx.openaiReady msgs) :
    GoodTrace (run cfg ctx evs).1.openaiReady
      (msgs ++ (run cfg ctx evs).2.openaiMsgs) := by
  induction evs generalizing ctx msgs with
  | nil =>
      simpa only [run, List.append_nil] using h
  | cons pe rest ih =>
      have hstep := step_goodTrace cfg pe.1 ctx pe.2 msgs h
      have := ih (step cfg pe.1 ctx pe.2).1
        (msgs ++ (step cfg pe.1 ctx pe.2).2.openaiMsgs) hstep
      show GoodTrace (run cfg (step cfg pe.1 ctx pe.2).1 rest).1.openaiReady
        (msgs ++ ((step cfg pe.1 ctx pe.2).2 ++ (run cfg (step cfg pe.1 ctx pe.2).1 rest).2).openaiMsgs)
      have happ : ((step cfg pe.1 ctx pe.2).2 ++ (run cfg (step cfg pe.1 ctx pe.2).1 rest).2).openaiMsgs
          = (step cfg pe.1 ctx pe.2).2.openaiMsgs ++ (run cfg (step cfg pe.1 ctx pe.2).1 rest).2.openaiMsgs := rfl
      rw [happ, ← List.append_assoc]
      exact this

-- ---------- Finalization counting ----------

theorem step_finals (cfg : Config) (now : Nat) (ctx : TwilioStreamContext)
    (e : Ev) :
    (step cfg now ctx e).2.finals
      = (match e with | Ev.twilioStop _ => 1 | _ => 0) := by
  cases e with
  | twilioStart d => rfl
  | twilioMedia p =>
      cases p with
      | none => rfl
      | some buf =>
          simp only [step, handleTwilioMedia]
          split
          · rfl
          · rfl
  | twilioMark => rfl
  | twilioStop o => rfl
  | twilioUnknown => rfl
  | twilioClose => rfl
  | twilioError => rfl
  | openaiOpen => rfl
  | openaiMsg oe =>
      cases oe with
      | speechStarted => rfl
      | speechStopped => rfl
      | audioDelta d =>
          cases d with
          | none => rfl
          | some x =>
              simp only [step, handleOpenAIMessage]
              split
              · rfl
              · split
                · split
                  · rfl
                  · rfl
                · rfl
      | outputTextDelta d => cases d with
          | none => rfl
          | some x => rfl
      | responseCompleted =>
          simp only [step, handleOpenAIMessage]
          split
          · rfl
          · rfl
      | inputTranscriptionCompleted t =>
          cases t with
          | none => rfl
          | some ct =>
              simp only [step, handleOpenAIMessage]
              split
              · rfl
              · rfl
      | errorEvent => rfl
      | otherEvent => rfl
  | openaiClose => rfl
  | openaiError => rfl

-- ---------- Concrete sessions and configurations for witnesses ----------

/-- A concrete configuration with empty prompts (the fallbacks apply). -/
def cfg0 : Config :=
  { callSystemPrompt := []
    summarySystemPrompt := []
    voiceStyle := []
    summaryModel := []
    defaultOrgId := none }

/-- A concrete active session: ids set, short non-empty transcript. -/
def ctxA : TwilioStreamContext :=
  { initialCtx ['c'] with
      callSid := some ['C', 'A', '1']
      streamSid := some ['M', 'Z', '1']
      correlationId := some ['C', 'A', '1']
      transcript := callerLineTag ++ ['h', 'i'] ++ newlineStr }

/-- `ctxA` while the caller is speaking. -/
def ctxSpeak : TwilioStreamContext := { ctxA with humanSpeaking := true }

/-- `ctxA` with the OpenAI link connected and ready. -/
def ctxReady : TwilioStreamContext :=
  { ctxA with openaiWs := true, openaiOpen := true, openaiReady := true }

/-- `ctxA` without a call id (a `start` without `callSid`). -/
def ctxNoSid : TwilioStreamContext := { ctxA with callSid := none }

/-- `ctxA` without a stream id (no `start` seen yet). -/
def ctxNoStream : TwilioStreamContext := { ctxA with streamSid := none }

/-- A session whose trimmed transcript is 48 characters long. -/
def ctxLong : TwilioStreamContext :=
  { ctxA with
      transcript := callerLineTag ++ List.replicate 40 'a' ++ newlineStr }

/-- `start` data with both ids present. -/
def startData0 : StartData :=
  { streamSid := some ['M', 'Z', '1']
    callSid := some ['C', 'A', '1']
    direction := none
    callType := none
    lastSummary := none
    lastTranscript := none }

/-- A start, the OpenAI open event, then one media frame. -/
def evs0 : List (Nat × Ev) :=
  [(0, Ev.twilioStart startData0), (0, Ev.openaiOpen),
   (0, Ev.twilioMedia (some [255]))]

-- ---------- Claim C1 ----------

/-- C1 counterexample: the session state has no `finalized` flag, so a
repeated telephony `stop` event runs the finalization pipeline — including
the call-log post — twice for the same session. -/
theorem double_stop_runs_finalization_twice :
    (run cfg0 ctxA [(0, Ev.twilioStop SummaryOutcome.httpError),
                    (1, Ev.twilioStop SummaryOutcome.httpError)]).2.finals = 2
    ∧ (run cfg0 ctxA [(0, Ev.twilioStop SummaryOutcome.httpError),
                      (1, Ev.twilioStop SummaryOutcome.httpError)]).2.httpReqs
      = [HttpRequest.callLogPost ['C', 'A', '1'] CallDirection.OUTBOUND
           (jsTrim ctxA.transcript) none,
         HttpRequest.callLogPost ['C', 'A', '1'] CallDirection.OUTBOUND
           (jsTrim ctxA.transcript) none] := by
  exact ⟨rfl, by decide⟩

/-- C1 (amended): the finalization pipeline is entered exactly once per
telephony `stop` event — socket close/error events never enter it, so a
stop followed by close/error finalizes once, but each further `stop` runs
the pipeline again (there is no `finalized` guard). -/
theorem finalization_count_equals_stop_count (cfg : Config)
    (ctx : TwilioStreamContext) (evs : List (Nat × Ev)) :
    (run cfg ctx evs).2.finals = countStops evs := by
  induction evs generalizing ctx with
  | nil => rfl
  | cons pe rest ih =>
      obtain ⟨now, e⟩ := pe
      have hrun : (run cfg ctx ((now, e) :: rest)).2.finals
          = (step cfg now ctx e).2.finals
            + (run cfg (step cfg now ctx e).1 rest).2.finals := rfl
      rw [hrun, step_finals, ih]
      cases e <;> simp only [countStops] <;> omega

-- ---------- Claim C2 ----------

/-- C2 counterexample: a session with a call id and a non-empty transcript
that is not finalized loses its transcript on abnormal socket close — the
close handler issues no HTTP request and never enters finalization (it only
closes the realtime link). -/
theorem abnormal_close_skips_finalization :
    ctxA.callSid = some ['C', 'A', '1']
    ∧ jsTrim ctxA.transcript ≠ []
    ∧ (step cfg0 0 ctxA Ev.twilioClose).2.httpReqs = []
    ∧ (step cfg0 0 ctxA Ev.twilioClose).2.finals = 0
    ∧ (step cfg0 0 ctxA Ev.twilioClose).1.openaiWs = false
    ∧ (step cfg0 0 ctxA Ev.twilioClose).1.openaiReady = false := by
  refine ⟨rfl, by decide, rfl, rfl, rfl, rfl⟩

/-- C2 (amended): on telephony socket close or error the session runs
`cleanup` only: the realtime link is closed and nulled, but the
finalization pipeline is not invoked (no summary request, no call-log
post), regardless of the transcript. -/
theorem close_and_error_only_cleanup (cfg : Config) (now : Nat)
    (ctx : TwilioStreamContext) :
    step cfg now ctx Ev.twilioClose
      = (cleanup ctx, { logs := [LogEv.twilioWsConnectionClosed] })
    ∧ step cfg now ctx Ev.twilioError
      = (cleanup ctx, { logs := [LogEv.twilioWsConnectionError] })
    ∧ (cleanup ctx).openaiWs = false
    ∧ (cleanup ctx).openaiReady = false
    ∧ (cleanup ctx).transcript = ctx.transcript :=
  ⟨rfl, rfl, rfl, rfl, rfl⟩

-- ---------- Claim C3 ----------

/-- C3: while `humanSpeaking = true` an OpenAI `response.audio.delta` sends
nothing to Twilio and logs exactly the structured drop event; while
`humanSpeaking = false` (socket open, stream id set) the delta payload is
forwarded unmodified as a media frame carrying the session's stream id. -/
theorem audio_delta_barge_in_gate (now : Nat) (ctx : TwilioStreamContext)
    (deltaBase64 : Str) (sid : Str) :
    (ctx.humanSpeaking = true →
      (handleOpenAIMessage now ctx
        (OpenAIEvent.audioDelta (some deltaBase64))).2.twilioMsgs = []
      ∧ (handleOpenAIMessage now ctx
          (OpenAIEvent.audioDelta (some deltaBase64))).2.logs
        = [LogEv.droppedOutboundAudioHumanSpeaking])
    ∧ (ctx.humanSpeaking = false → ctx.streamSid = some sid →
        ctx.twilioOpen = true →
      (handleOpenAIMessage now ctx
        (OpenAIEvent.audioDelta (some deltaBase64))).2.twilioMsgs
        = [TwilioOut.media sid deltaBase64]) := by
  constructor
  · intro h
    simp [handleOpenAIMessage, h]
  · intro h hs ho
    simp [handleOpenAIMessage, h, hs, ho]

theorem audio_delta_barge_in_gate_witness :
    ((handleOpenAIMessage 0 ctxSpeak
        (OpenAIEvent.audioDelta (some ['x']))).2.twilioMsgs = []
      ∧ (handleOpenAIMessage 0 ctxSpeak
          (OpenAIEvent.audioDelta (some ['x']))).2.logs
        = [LogEv.droppedOutboundAudioHumanSpeaking])
    ∧ (handleOpenAIMessage 0 ctxA
        (OpenAIEvent.audioDelta (some ['x']))).2.twilioMsgs
      = [TwilioOut.media ['M', 'Z', '1'] ['x']] :=
  ⟨(audio_delta_barge_in_gate 0 ctxSpeak ['x'] ['M', 'Z', '1']).1 rfl,
   (audio_delta_barge_in_gate 0 ctxA ['x'] ['M', 'Z', '1']).2 rfl rfl rfl⟩

-- ---------- Claim C4 ----------

/-- C4: every media frame forwarded to the realtime peer carries exactly
the µ-law decode followed by 8k→16k upsampling of the inbound bytes; the
PCM byte length is 4× the µ-law byte length, and the upsampler emits each
decoded sample exactly twice in order. -/
theorem forwarded_frame_length_and_sample_duplication (cfg : Config)
    (now : Nat) (ctx : TwilioStreamContext) (mulawBuf : List Nat)
    (hws : ctx.openaiWs = true) (hready : ctx.openaiReady = true) :
    (step cfg now ctx (Ev.twilioMedia (some mulawBuf))).2.openaiMsgs
      = [OpenAIMsg.audioAppend (upsample8kTo16k (decodeMulawToPcm16 mulawBuf))]
    ∧ (upsample8kTo16k (decodeMulawToPcm16 mulawBuf)).length = 4 * mulawBuf.length
    ∧ bytesToInt16Pairs (upsample8kTo16k (decodeMulawToPcm16 mulawBuf))
      = dupEach (bytesToInt16Pairs (decodeMulawToPcm16 mulawBuf)) := by
  refine ⟨?_, length_decode_upsample mulawBuf, upsample_duplicates_samples _⟩
  simp [step, handleTwilioMedia, hws, hready]

theorem forwarded_frame_length_and_sample_duplication_witness :
    (step cfg0 0 ctxReady (Ev.twilioMedia (some [255, 0]))).2.openaiMsgs
      = [OpenAIMsg.audioAppend (upsample8kTo16k (decodeMulawToPcm16 [255, 0]))]
    ∧ (upsample8kTo16k (decodeMulawToPcm16 [255, 0])).length
      = 4 * ([255, 0] : List Nat).length
    ∧ bytesToInt16Pairs (upsample8kTo16k (decodeMulawToPcm16 [255, 0]))
      = dupEach (bytesToInt16Pairs (decodeMulawToPcm16 [255, 0])) :=
  forwarded_frame_length_and_sample_duplication cfg0 0 ctxReady [255, 0] rfl rfl

-- ---------- Claim C5 ----------

/-- Modelled from the spec: the G.711 expansion as the specification words
it — invert the bits of the byte, split sign / 3-bit exponent / 4-bit
mantissa, reconstruct `((mantissa << 3) + 0x84) << exponent − 0x84`,
negated when the sign bit is set. -/
def g711SpecSample (u : Nat) : Int :=
  let inverted := 255 - u % 256
  let sign := inverted / 128
  let exponent := inverted / 16 % 8
  let mantissa := inverted % 16
  let magnitude : Int := (Int.ofNat (mantissa * 8 + 0x84)) * 2 ^ exponent - 0x84
  if sign = 1 then -magnitude else magnitude

set_option maxRecDepth 8192 in
/-- C5: the µ-law decoder computes exactly the specified G.711 expansion,
and the boundary bytes `0xFF` and `0x7F` both decode to linear sample 0. -/
theorem mulaw_decoder_matches_spec_formula (u : Nat) (hu : u < 256) :
    mulawToLinearSample u = g711SpecSample u
    ∧ mulawToLinearSample 0xFF = 0
    ∧ mulawToLinearSample 0x7F = 0 :=
  ⟨(by decide : ∀ v, v < 256 → mulawToLinearSample v = g711SpecSample v) u hu,
   by decide, by decide⟩

theorem mulaw_decoder_matches_spec_formula_witness :
    mulawToLinearSample 0x7F = g711SpecSample 0x7F
    ∧ mulawToLinearSample 0xFF = 0
    ∧ mulawToLinearSample 0x7F = 0 :=
  mulaw_decoder_matches_spec_formula 0x7F (by decide)

-- ---------- Claim C6 ----------

/-- A failing summary exchange: non-2xx status, transport error, or a 2xx
whose content trims to empty. -/
def summaryFailed (o : SummaryOutcome) : Prop :=
  match o with
  | SummaryOutcome.ok content => jsTrim content = []
  | SummaryOutcome.httpError => True
  | SummaryOutcome.transportError => True

/-- C6: below 40 trimmed characters the finalizer issues no summary
request and posts the call log with a null summary; at 40 or more it
issues the summary request first and still posts the call log, with a null
summary whenever the request fails. -/
theorem summary_threshold_and_failure (o : SummaryOutcome)
    (ctx : TwilioStreamContext) (c : Str)
    (hc : ctx.callSid = some c) (ht : jsTrim ctx.transcript ≠ []) :
    ((jsTrim ctx.transcript).length < 40 →
      (saveTranscriptAndSummary o ctx).1
        = [HttpRequest.callLogPost c ctx.direction (jsTrim ctx.transcript) none])
    ∧ (40 ≤ (jsTrim ctx.transcript).length →
      (saveTranscriptAndSummary o ctx).1
        = [HttpRequest.summaryRequest (jsTrim ctx.transcript),
           HttpRequest.callLogPost c ctx.direction (jsTrim ctx.transcript)
             (summaryFetchResult o)])
    ∧ (summaryFailed o → summaryFetchResult o = none) := by
  refine ⟨?_, ?_, ?_⟩
  · intro hlen
    simp only [saveTranscriptAndSummary, hc, if_neg ht]
    rw [if_neg (Nat.not_le.mpr hlen)]
    rfl
  · intro hlen
    simp only [saveTranscriptAndSummary, hc, if_neg ht]
    rw [if_pos hlen]
    rfl
  · intro hf
    cases o with
    | ok content =>
        simp only [summaryFailed] at hf
        simp only [summaryFetchResult, if_pos hf]
    | httpError => rfl
    | transportError => rfl

theorem summary_threshold_and_failure_witness :
    (saveTranscriptAndSummary SummaryOutcome.httpError ctxLong).1
      = [HttpRequest.summaryRequest (jsTrim ctxLong.transcript),
         HttpRequest.callLogPost ['C', 'A', '1'] ctxLong.direction
           (jsTrim ctxLong.transcript) (summaryFetchResult SummaryOutcome.httpError)]
    ∧ summaryFetchResult SummaryOutcome.httpError = none :=
  ⟨(summary_threshold_and_failure SummaryOutcome.httpError ctxLong
      ['C', 'A', '1'] rfl (by decide)).2.1 (by decide),
   (summary_threshold_and_failure SummaryOutcome.httpError ctxLong
      ['C', 'A', '1'] rfl (by decide)).2.2 trivial⟩

-- ---------- Claim C7 ----------

/-- C7: with no call id or an empty trimmed transcript, the finalizer logs
one skip event and returns without issuing any HTTP request, and the stop
handler still closes both sockets normally. -/
theorem finalizer_skips_without_callsid_or_transcript (cfg : Config)
    (o : SummaryOutcome) (now : Nat) (ctx : TwilioStreamContext)
    (h : ctx.callSid = none ∨ jsTrim ctx.transcript = []) :
    (saveTranscriptAndSummary o ctx).1 = []
    ∧ ((saveTranscriptAndSummary o ctx).2 = [LogEv.calllogMissingCallSid]
       ∨ (saveTranscriptAndSummary o ctx).2 = [LogEv.calllogEmptyTranscript])
    ∧ (step cfg now ctx (Ev.twilioStop o)).2.httpReqs = []
    ∧ (step cfg now ctx (Ev.twilioStop o)).1.twilioOpen = false
    ∧ (step cfg now ctx (Ev.twilioStop o)).1.openaiWs = false
    ∧ (step cfg now ctx (Ev.twilioStop o)).1.openaiReady = false := by
  have hsave : (saveTranscriptAndSummary o ctx).1 = []
      ∧ ((saveTranscriptAndSummary o ctx).2 = [LogEv.calllogMissingCallSid]
         ∨ (saveTranscriptAndSummary o ctx).2 = [LogEv.calllogEmptyTranscript]) := by
    cases hcs : ctx.callSid with
    | none => simp [saveTranscriptAndSummary, hcs]
    | some c =>
        rcases h with h1 | h2
        · rw [hcs] at h1; exact Option.noConfusion h1
        · simp [saveTranscriptAndSummary, hcs, if_pos h2]
  refine ⟨hsave.1, hsave.2, ?_, rfl, rfl, rfl⟩
  show (saveTranscriptAndSummary o ctx).1 = []
  exact hsave.1

theorem finalizer_skips_without_callsid_or_transcript_witness :
    (saveTranscriptAndSummary SummaryOutcome.httpError ctxNoSid).1 = []
    ∧ ((saveTranscriptAndSummary SummaryOutcome.httpError ctxNoSid).2
        = [LogEv.calllogMissingCallSid]
       ∨ (saveTranscriptAndSummary SummaryOutcome.httpError ctxNoSid).2
        = [LogEv.calllogEmptyTranscript])
    ∧ (step cfg0 0 ctxNoSid (Ev.twilioStop SummaryOutcome.httpError)).2.httpReqs = []
    ∧ (step cfg0 0 ctxNoSid (Ev.twilioStop SummaryOutcome.httpError)).1.twilioOpen = false
    ∧ (step cfg0 0 ctxNoSid (Ev.twilioStop SummaryOutcome.httpError)).1.openaiWs = false
    ∧ (step cfg0 0 ctxNoSid (Ev.twilioStop SummaryOutcome.httpError)).1.openaiReady = false :=
  finalizer_skips_without_callsid_or_transcript cfg0 SummaryOutcome.httpError 0
    ctxNoSid (Or.inl rfl)

-- ---------- Claim C8 ----------

/-- C8: on the realtime link, every forwarded audio append is preceded by
a `session.update` and a later `response.create` (in that order), for any
sequence of events from the initial session state; and audio arriving
before the realtime link is ready is dropped without any output. -/
theorem session_update_precedes_response_create_precedes_audio (cfg : Config)
    (connId : Str) (evs : List (Nat × Ev)) :
    (∀ i a, ((run cfg (initialCtx connId) evs).2.openaiMsgs).get? i
        = some (OpenAIMsg.audioAppend a) →
      ∃ j k, j < k ∧ k < i
        ∧ (∃ s, ((run cfg (initialCtx connId) evs).2.openaiMsgs).get? j
            = some (OpenAIMsg.sessionUpdate s))
        ∧ (∃ r, ((run cfg (initialCtx connId) evs).2.openaiMsgs).get? k
            = some (OpenAIMsg.responseCreate r)))
    ∧ (∀ now ctx p, ctx.openaiReady = false →
        step cfg now ctx (Ev.twilioMedia p) = (ctx, {})) := by
  constructor
  · have h0 : GoodTrace (initialCtx connId).openaiReady [] :=
      ⟨fun hr => (nomatch hr), fun i a hi => (nomatch hi)⟩
    have := run_goodTrace cfg evs (initialCtx connId) [] h0
    simpa only [List.nil_append] using this.2
  · intro now ctx p h
    cases p with
    | none => rfl
    | some buf =>
        simp only [step, handleTwilioMedia, h, Bool.and_false,
          Bool.false_eq_true, if_false]

theorem session_update_precedes_response_create_precedes_audio_witness :
    (∃ j k, j < k ∧ k < 2
      ∧ (∃ s, ((run cfg0 (initialCtx ['c']) evs0).2.openaiMsgs).get? j
          = some (OpenAIMsg.sessionUpdate s))
      ∧ (∃ r, ((run cfg0 (initialCtx ['c']) evs0).2.openaiMsgs).get? k
          = some (OpenAIMsg.responseCreate r)))
    ∧ step cfg0 0 (initialCtx ['c']) (Ev.twilioMedia (some [255]))
      = (initialCtx ['c'], {}) :=
  ⟨(session_update_precedes_response_create_precedes_audio cfg0 ['c'] evs0).1
      2 (upsample8kTo16k (decodeMulawToPcm16 [255])) rfl,
   (session_update_precedes_response_create_precedes_audio cfg0 ['c'] evs0).2
      0 (initialCtx ['c']) (some [255]) rfl⟩

-- ---------- Claim C9 ----------

/-- C9: the transcript is always a serialization of segments in which
every Dipsy segment has non-empty trimmed text; agent text deltas only
grow the agent buffer; on a response-completed event the buffer is cleared
exactly when its trimmed content was non-empty (and committed). -/
theorem transcript_agent_segments_never_empty (cfg : Config) (connId : Str)
    (evs : List (Nat × Ev)) :
    TranscriptWF ((run cfg (initialCtx connId) evs).1.transcript)
    ∧ (∀ now ctx d, handleOpenAIMessage now ctx
        (OpenAIEvent.outputTextDelta (some d))
        = ({ ctx with assistantBuffer := ctx.assistantBuffer ++ d }, {}))
    ∧ (∀ now ctx, (handleOpenAIMessage now ctx
        OpenAIEvent.responseCompleted).1.assistantBuffer
        = if jsTrim ctx.assistantBuffer = [] then ctx.assistantBuffer else []) := by
  refine ⟨run_transcriptWF cfg evs (initialCtx connId) transcriptWF_nil,
    fun now ctx d => rfl, fun now ctx => ?_⟩
  by_cases h : jsTrim ctx.assistantBuffer = []
  · rw [if_pos h]
    simp [handleOpenAIMessage, h]
  · rw [if_neg h]
    simp [handleOpenAIMessage, h]

-- ---------- Claim C10 ----------

/-- C10: with `humanSpeaking = false`, an audio delta is forwarded only
when the Twilio socket is open and the stream id is set; a missing
payload, a closed socket, or a null stream id leaves the state unchanged
and produces no output at all. -/
theorem audio_delta_discard_conditions (now : Nat)
    (ctx : TwilioStreamContext) (deltaBase64 : Str)
    (h : ctx.humanSpeaking = false) :
    handleOpenAIMessage now ctx (OpenAIEvent.audioDelta none) = (ctx, {})
    ∧ (ctx.streamSid = none →
        handleOpenAIMessage now ctx (OpenAIEvent.audioDelta (some deltaBase64))
          = (ctx, {}))
    ∧ (ctx.twilioOpen = false →
        handleOpenAIMessage now ctx (OpenAIEvent.audioDelta (some deltaBase64))
          = (ctx, {}))
    ∧ ((handleOpenAIMessage now ctx
          (OpenAIEvent.audioDelta (some deltaBase64))).2.twilioMsgs ≠ [] →
        ctx.twilioOpen = true ∧ ∃ s, ctx.streamSid = some s) := by
  refine ⟨rfl, ?_, ?_, ?_⟩
  · intro hs
    simp [handleOpenAIMessage, h, hs]
  · intro ho
    cases hs : ctx.streamSid with
    | none => simp [handleOpenAIMessage, h, hs]
    | some sid => simp [handleOpenAIMessage, h, hs, ho]
  · intro hne
    cases hs : ctx.streamSid with
    | none =>
        exfalso
        exact hne (by simp [handleOpenAIMessage, h, hs])
    | some sid =>
        cases ho : ctx.twilioOpen with
        | false =>
            exfalso
            exact hne (by simp [handleOpenAIMessage, h, hs, ho])
        | true => exact ⟨rfl, sid, rfl⟩

theorem audio_delta_discard_conditions_witness :
    handleOpenAIMessage 0 ctxNoStream (OpenAIEvent.audioDelta none)
      = (ctxNoStream, {})
    ∧ handleOpenAIMessage 0 ctxNoStream (OpenAIEvent.audioDelta (some ['x']))
      = (ctxNoStream, {}) :=
  ⟨(audio_delta_discard_conditions 0 ctxNoStream ['x'] rfl).1,
   (audio_delta_discard_conditions 0 ctxNoStream ['x'] rfl).2.1 rfl⟩

end VoiceBridge
